import Mathlib

/-!
Verification of the `Inner` component of react-pdf-viewer
(`src/packages/core/src/layouts/Inner.tsx`), a virtualized PDF page viewer.

The component's pure logic (range computation, rotation arithmetic, size
estimation, named actions, the zoom/rotate state updates, the plugin
install/uninstall effect, `setViewerState`, `renderNextPage`) is embedded as
executable Lean functions over an explicit state.  JavaScript numbers that are
only ever integers in the code (page indices, rotations) are modelled by `Int`;
scales, sizes and visibility fractions by `ℚ`.  The render queue hook
(`useRenderQueue`) is not part of the file under verification; its operations
are modelled from the specification text and marked as such.
-/

namespace ReactPdfViewer

/-- Render lifecycle status of a page (not-rendered → rendering → rendered). -/
inductive RenderStatus where
  | notRendered
  | rendering
  | rendered
deriving DecidableEq, Repr

/-- `RotateDirection` from `structs/RotateDirection`. -/
inductive RotateDirection where
  | Backward
  | Forward
deriving DecidableEq, Repr

/-- `ScrollMode` from `structs/ScrollMode`. -/
inductive ScrollMode where
  | Horizontal
  | Vertical
  | Wrapped
deriving DecidableEq, Repr

/-- `SpecialZoomLevel` from `structs/SpecialZoomLevel`. -/
inductive SpecialZoomLevel where
  | ActualSize
  | PageFit
  | PageWidth
deriving DecidableEq, Repr

/-- A rectangle (`types/Rect`): a height and a width. -/
structure Rect where
  height : ℚ
  width : ℚ
deriving DecidableEq, Repr

/-- The per-page rotation map `Map<number, number>`, as an association list. -/
abbrev PagesRotationMap : Type := List (Int × Int)

/-- `Map.has`. -/
def mapHas (m : PagesRotationMap) (k : Int) : Bool :=
  (List.find? (fun kv => kv.1 == k) m).isSome

/-- `Map.get` (the code only reads keys guarded by `has`, so the default is
irrelevant). -/
def mapGet (m : PagesRotationMap) (k : Int) : Int :=
  match List.find? (fun kv => kv.1 == k) m with
  | some kv => kv.2
  | none => 0

/-- `Map.set`: replace the binding when the key is present, append otherwise. -/
def mapSet (m : PagesRotationMap) (k v : Int) : PagesRotationMap :=
  if mapHas m k then List.map (fun kv => if kv.1 == k then (k, v) else kv) m
  else m ++ [(k, v)]

/-- `types/ViewerState`: the state held in `stateRef`. -/
structure ViewerState where
  pageIndex : Int
  scale : ℚ
  rotation : Int
  pagesRotation : PagesRotationMap
  rotatedPage : Option Int
  scrollMode : ScrollMode

/-- A plugin (`types/Plugin`), reduced to the hooks `Inner.tsx` uses: whether
an `install`/`uninstall` hook is present, and the optional
`onViewerStateChange` transformation. -/
structure Plugin where
  hasInstall : Bool
  hasUninstall : Bool
  onViewerStateChange : Option (ViewerState → ViewerState)

/-!  ## The render queue

Modelled from the spec: the render queue provided by the `useRenderQueue` hook,
whose implementation is not under the sources being verified (only its caller
`Inner.tsx` is).  The spec describes it as the scheduler state that "(b) tracks
a per-item render lifecycle (not-rendered → rendering → rendered), and
(c) chooses, among visible-but-unrendered items, the next one to render based
on a priority heuristic (visibility fraction)".  -/

/-- Modelled from the spec: the state of the render queue from
`useRenderQueue` — a per-page lifecycle status, a per-page visibility
fraction, and the current render range. -/
structure RenderQueue where
  numPages : Nat
  statuses : Int → RenderStatus
  visibilities : Int → ℚ
  startRange : Int
  endRange : Int

/-- The page indices `0, 1, ..., n-1` as integers. -/
def pageList (n : Nat) : List Int :=
  List.map Int.ofNat (List.range n)

/-- Modelled from the spec: the "visible-but-unrendered items" — pages whose
status is not-rendered and whose visibility fraction is positive. -/
def candidates (q : RenderQueue) : List Int :=
  List.filter (fun i => decide (q.statuses i = RenderStatus.notRendered ∧ 0 < q.visibilities i))
    (pageList q.numPages)

/-- One step of the priority scan: keep the page seen so far with the greatest
visibility (`-1` when none has been seen yet). -/
def priorityStep (q : RenderQueue) (best i : Int) : Int :=
  if best < 0 then i else if q.visibilities best < q.visibilities i then i else best

/-- Modelled from the spec: `renderQueue.getHighestPriorityPage` — among
visible-but-unrendered pages, the one with the greatest visibility fraction,
or `-1` when there is none. -/
def getHighestPriorityPage (q : RenderQueue) : Int :=
  List.foldl (priorityStep q) (-1) (candidates q)

/-- `renderQueue.isInRange`: the page lies inside the current render range. -/
def isInRange (q : RenderQueue) (p : Int) : Prop :=
  q.startRange ≤ p ∧ p ≤ q.endRange

instance (q : RenderQueue) (p : Int) : Decidable (isInRange q p) := by
  unfold isInRange; infer_instance

/-- `renderQueue.markRendering`: set one page's status to rendering. -/
def markRendering (q : RenderQueue) (p : Int) : RenderQueue :=
  { q with statuses := fun i => if i = p then RenderStatus.rendering else q.statuses i }

/-- `renderQueue.markRendered`: set one page's status to rendered. -/
def markRendered (q : RenderQueue) (p : Int) : RenderQueue :=
  { q with statuses := fun i => if i = p then RenderStatus.rendered else q.statuses i }

/-- `renderQueue.markNotRendered`: reset every page to not-rendered. -/
def markNotRendered (q : RenderQueue) : RenderQueue :=
  { q with statuses := fun _ => RenderStatus.notRendered }

/-- `renderQueue.setRange`: set the render range. -/
def setRange (q : RenderQueue) (s e : Int) : RenderQueue :=
  { q with startRange := s, endRange := e }

/-- `renderQueue.setVisibility`: record one page's visibility fraction. -/
def setVisibility (q : RenderQueue) (p : Int) (v : ℚ) : RenderQueue :=
  { q with visibilities := fun i => if i = p then v else q.visibilities i }

/-!  ## The `Inner` component state  -/

/-- The React state of the `Inner` component that the claims are about.  -/
structure InnerState where
  numPages : Nat
  currentPage : Int
  rotation : Int
  pagesRotationChanged : Bool
  pagesRotation : PagesRotationMap
  currentScrollMode : ScrollMode
  scale : ℚ
  stateRef : ViewerState
  keepSpecialZoomLevel : Option SpecialZoomLevel
  renderPageIndex : Int
  renderQueueKey : Nat
  renderQueue : RenderQueue

/-- `setViewerState`'s plugin loop: `plugins.forEach((plugin) => { if
(plugin.onViewerStateChange) { newState = plugin.onViewerStateChange(newState);
} })`, as explicit recursion threading `newState`. -/
def applyViewerStateChange : List Plugin → ViewerState → ViewerState
  | [], st => st
  | p :: ps, st =>
    match p.onViewerStateChange with
    | some f => applyViewerStateChange ps (f st)
    | none => applyViewerStateChange ps st

/-- `setViewerState`: thread the new viewer state through every plugin's
`onViewerStateChange` hook and store the result in `stateRef`. -/
def setViewerStateOp (plugins : List Plugin) (s : InnerState) (v : ViewerState) : InnerState :=
  { s with stateRef := applyViewerStateChange plugins v }

/-- `NUM_OVERSCAN_PAGES = 3`. -/
def NUM_OVERSCAN_PAGES : Int := 3

/-- `setStartRange`: `Math.max(startIndex - NUM_OVERSCAN_PAGES, 0)`. -/
def setStartRange (startIndex : Int) : Int :=
  max (startIndex - NUM_OVERSCAN_PAGES) 0

/-- `setEndRange`: `Math.min(endIndex + NUM_OVERSCAN_PAGES, numPages - 1)`. -/
def setEndRange (numPages : Nat) (endIndex : Int) : Int :=
  min (endIndex + NUM_OVERSCAN_PAGES) ((numPages : Int) - 1)

/-- `estimateSize`: the estimated page rectangle at the current rotation and
scale; height and width are swapped when `Math.abs(rotation) % 180 !== 0`. -/
def estimateSize (pageHeight pageWidth : ℚ) (rotation : Int) (scale : ℚ) : Rect :=
  let sizes := (pageHeight, pageWidth)
  let rect : Rect :=
    if rotation.natAbs % 180 = 0 then { height := sizes.1, width := sizes.2 }
    else { height := sizes.2, width := sizes.1 }
  { height := rect.height * scale, width := rect.width * scale }

/-- The rotation update rule inside `rotate`: `±90`, except that from `±360`
the new rotation is the bare step. -/
def rotateUpdate (currentRotation : Int) (direction : RotateDirection) : Int :=
  let degrees : Int := if direction = RotateDirection.Backward then -90 else 90
  if currentRotation = 360 ∨ currentRotation = -360 then degrees
  else currentRotation + degrees

/-- `types/RotateEvent` (without the document handle). -/
structure RotateEvent where
  direction : RotateDirection
  rotation : Int
deriving DecidableEq, Repr

/-- `rotate`: reset the render queue, update the global rotation, store the new
viewer state, and report the event passed to `onRotate`. -/
def rotate (plugins : List Plugin) (s : InnerState) (direction : RotateDirection) :
    InnerState × RotateEvent :=
  let currentRotation := s.stateRef.rotation
  let updateRotation := rotateUpdate currentRotation direction
  let s1 : InnerState :=
    { s with renderQueue := markNotRendered s.renderQueue, rotation := updateRotation }
  let s2 := setViewerStateOp plugins s1 { s1.stateRef with rotation := updateRotation }
  (s2, { direction := direction, rotation := updateRotation })

/-- `types/RotatePageEvent` (without the document handle). -/
structure RotatePageEvent where
  direction : RotateDirection
  pageIndex : Int
  rotation : Int
deriving DecidableEq, Repr

/-- `rotatePage`: update one page's rotation, store the viewer state, mark the
page as rendering and schedule it. -/
def rotatePage (plugins : List Plugin) (s : InnerState) (pageIndex : Int)
    (direction : RotateDirection) : InnerState × RotatePageEvent :=
  let degrees : Int := if direction = RotateDirection.Backward then -90 else 90
  let rotations := s.stateRef.pagesRotation
  let currentPageRotation := if mapHas rotations pageIndex then mapGet rotations pageIndex else 0
  let finalRotation := currentPageRotation + degrees
  let updateRotations := mapSet rotations pageIndex finalRotation
  let s1 : InnerState :=
    { s with pagesRotation := updateRotations,
             pagesRotationChanged := !s.pagesRotationChanged }
  let s2 := setViewerStateOp plugins s1
    { s1.stateRef with pagesRotation := updateRotations, rotatedPage := some pageIndex }
  let s3 : InnerState :=
    { s2 with renderQueue := markRendering s2.renderQueue pageIndex,
              renderPageIndex := pageIndex }
  (s3, { direction := direction, pageIndex := pageIndex, rotation := finalRotation })

/-- `types/ZoomEvent` (without the document handle). -/
structure ZoomEvent where
  scale : ℚ
deriving DecidableEq, Repr

/-- `zoom`: compute the new scale (via the abstracted `calculateScale` for a
special level, `1` when the pages element is absent), remember a kept special
level, and either return early when the scale is unchanged or reset the queue,
bump the queue key, apply the scale and store the viewer state.  The second
component is the ratio passed to `virtualizer.zoom` (when called), the third
the event passed to `onZoom` (when invoked). -/
def zoom (plugins : List Plugin) (calcScale : SpecialZoomLevel → ℚ) (pagesEleExists : Bool)
    (s : InnerState) (newScale : ℚ ⊕ SpecialZoomLevel) :
    InnerState × Option ℚ × Option ZoomEvent :=
  let updateScale : ℚ :=
    if pagesEleExists then
      match newScale with
      | Sum.inl v => v
      | Sum.inr lvl => calcScale lvl
    else 1
  let keepLevel : Option SpecialZoomLevel :=
    match newScale with
    | Sum.inl _ => none
    | Sum.inr lvl => some lvl
  let s1 : InnerState := { s with keepSpecialZoomLevel := keepLevel }
  if updateScale = s1.stateRef.scale then (s1, none, none)
  else
    let zoomRatio := updateScale / s1.stateRef.scale
    let s2 : InnerState :=
      { s1 with renderQueueKey := s1.renderQueueKey + 1,
                renderQueue := markNotRendered s1.renderQueue,
                scale := updateScale }
    let s3 := setViewerStateOp plugins s2 { s2.stateRef with scale := updateScale }
    (s3, some zoomRatio, some { scale := updateScale })

/-- The page `renderNextPage` would schedule: the render queue's highest
priority page when it exists (`> -1`) and is in range, `none` otherwise. -/
def scheduledPage (q : RenderQueue) : Option Int :=
  let nextPage := getHighestPriorityPage q
  if nextPage > -1 ∧ isInRange q nextPage then some nextPage else none

/-- `renderNextPage`: ask the queue for its highest priority page; when it
exists and is in range, mark it as rendering and set it as the page to render. -/
def renderNextPage (s : InnerState) : InnerState :=
  let nextPage := getHighestPriorityPage s.renderQueue
  if nextPage > -1 ∧ isInRange s.renderQueue nextPage then
    { s with renderQueue := markRendering s.renderQueue nextPage,
             renderPageIndex := nextPage }
  else s

/-- `handlePageRenderCompleted`: mark the completed page as rendered, then
schedule the next page. -/
def handlePageRenderCompleted (s : InnerState) (pageIndex : Int) : InnerState :=
  renderNextPage { s with renderQueue := markRendered s.renderQueue pageIndex }

/-- A virtual item reported by the virtualizer: its index and visibility. -/
structure VirtualItem where
  index : Int
  visibility : ℚ

/-- The integer indices `startRange, startRange+1, ..., endRange`. -/
def rangeList (startRange endRange : Int) : List Int :=
  List.map (fun i => startRange + Int.ofNat i)
    (List.range (endRange - startRange + 1).toNat)

/-- One iteration of the visibility-recording loop: record the visibility of
the virtual item with index `i` when there is one
(`virtualItems.find((item) => item.index === i)`). -/
def recordVisibilityStep (items : List VirtualItem) (q : RenderQueue) (i : Int) :
    RenderQueue :=
  match List.find? (fun item => item.index == i) items with
  | some item => setVisibility q i item.visibility
  | none => q

/-- The visibility-recording loop of the range effect: for each index of the
render range, record the visibility of the virtual item with that index when
there is one. -/
def recordVisibilities (items : List VirtualItem) (q : RenderQueue) (idxs : List Int) :
    RenderQueue :=
  List.foldl (recordVisibilityStep items) q idxs

/-- The render queue after the range effect's queue updates: the range is set
and the in-range items' visibilities are recorded. -/
def rangedQueue (q : RenderQueue) (startRange endRange : Int) (items : List VirtualItem) :
    RenderQueue :=
  recordVisibilities items (setRange q startRange endRange) (rangeList startRange endRange)

/-- The effect run whenever the virtualizer's ranges, the rotations or the
scale change: set the current page to the index with the greatest visibility,
store the viewer state, set the queue's range, record the visibilities of the
in-range items, and render the next page. -/
def updateVisibleRange (plugins : List Plugin) (s : InnerState)
    (startRange endRange maxVisbilityIndex : Int) (virtualItems : List VirtualItem) :
    InnerState :=
  let currentPage := maxVisbilityIndex
  let s1 : InnerState := { s with currentPage := currentPage }
  let s2 := setViewerStateOp plugins s1 { s1.stateRef with pageIndex := currentPage }
  renderNextPage
    { s2 with renderQueue := rangedQueue s2.renderQueue startRange endRange virtualItems }

/-- The component state on which the range effect's final `renderNextPage`
runs: current page and viewer state updated, queue ranged. -/
def preRenderState (plugins : List Plugin) (s : InnerState) (a b mv : Int)
    (items : List VirtualItem) : InnerState :=
  let s1 : InnerState := { s with currentPage := mv }
  let s2 := setViewerStateOp plugins s1 { s1.stateRef with pageIndex := mv }
  { s2 with renderQueue := rangedQueue s2.renderQueue a b items }

/-- The render/complete cycle of the scheduler, under the assumption that
every scheduled render completes: while a page can be scheduled
(`renderNextPage`'s guard), mark it rendering and, on completion
(`handlePageRenderCompleted`), rendered, then schedule the next page.  The
fuel bounds the number of completions considered. -/
def renderLoop : Nat → RenderQueue → RenderQueue
  | 0, q => q
  | fuel + 1, q =>
    let nextPage := getHighestPriorityPage q
    if nextPage > -1 ∧ isInRange q nextPage then
      renderLoop fuel (markRendered (markRendering q nextPage) nextPage)
    else q

/-- `jumpToPage`'s scroll request: the item index scrolled to, with offsets. -/
structure ScrollRequest where
  itemIndex : Int
  left : ℚ
  top : ℚ
deriving DecidableEq, Repr

/-- `jumpToPage`: scroll to the page when `0 <= pageIndex && pageIndex <
numPages`, otherwise do nothing. -/
def jumpToPage (numPages : Nat) (pageIndex : Int) : Option ScrollRequest :=
  if 0 ≤ pageIndex ∧ pageIndex < (numPages : Int) then
    some { itemIndex := pageIndex, left := 0, top := 0 }
  else none

def actionFirstPage : String := "FirstPage"

def actionLastPage : String := "LastPage"

def actionNextPage : String := "NextPage"

def actionPrevPage : String := "PrevPage"

def actionGoBack : String := "GoBack"

/-- `executeNamedAction`: the named-action dispatcher over the current page. -/
def executeNamedAction (numPages : Nat) (currentPage : Int) (action : String) :
    Option ScrollRequest :=
  let previousPage := currentPage - 1
  let nextPage := currentPage + 1
  if action = actionFirstPage then jumpToPage numPages 0
  else if action = actionLastPage then jumpToPage numPages ((numPages : Int) - 1)
  else if action = actionNextPage then
    if nextPage < (numPages : Int) then jumpToPage numPages nextPage else none
  else if action = actionPrevPage then
    if previousPage ≥ 0 then jumpToPage numPages previousPage else none
  else none

/-!  ## The plugin install/uninstall effect  -/

/-- The operations a `PluginFunctions` object exposes. -/
inductive PluginMethod where
  | getPagesContainer
  | getViewerState
  | jumpToDestination
  | jumpToPage
  | openFile
  | rotate
  | rotatePage
  | setViewerState
  | switchScrollMode
  | zoom
deriving DecidableEq, Repr

/-- The `pluginMethods` object built by the install effect: the list of
operations it exposes, in declaration order. -/
def pluginMethods : List PluginMethod :=
  [PluginMethod.getPagesContainer, PluginMethod.getViewerState,
    PluginMethod.jumpToDestination, PluginMethod.jumpToPage, PluginMethod.openFile,
    PluginMethod.rotate, PluginMethod.rotatePage, PluginMethod.setViewerState,
    PluginMethod.switchScrollMode, PluginMethod.zoom]

/-- One `install` or `uninstall` call: which plugin (by position in the plugins
array) was called, and the methods object it received. -/
structure PluginCall where
  pluginIndex : Nat
  methods : List PluginMethod
deriving DecidableEq, Repr

/-- The call record for the plugin at array position `k`: it receives the
`pluginMethods` object. -/
def callAt (k : Nat) : PluginCall :=
  { pluginIndex := k, methods := pluginMethods }

/-- The shape shared by the effect's two `plugins.forEach` loops: call the
hook selected by `sel` (when present) with `pluginMethods`, threading the
array position. -/
def callsFrom (sel : Plugin → Bool) (k : Nat) : List Plugin → List PluginCall
  | [] => []
  | p :: ps =>
    (if sel p then [callAt k] else []) ++ callsFrom sel (k + 1) ps

/-- The install calls the mount effect makes, in plugins-array order:
`plugins.forEach((plugin) => { if (plugin.install) { plugin.install(pluginMethods); } })`. -/
def installPlugins (plugins : List Plugin) : List PluginCall :=
  callsFrom (fun p => p.hasInstall) 0 plugins

/-- The uninstall calls the effect's cleanup makes, in plugins-array order. -/
def uninstallPlugins (plugins : List Plugin) : List PluginCall :=
  callsFrom (fun p => p.hasUninstall) 0 plugins

/-!  ## Concrete fixtures used by the witnesses  -/

/-- A concrete plugin with both lifecycle hooks and no state hook. -/
def exPlugin : Plugin :=
  { hasInstall := true, hasUninstall := true, onViewerStateChange := none }

/-- A concrete viewer state. -/
def exViewerState : ViewerState :=
  { pageIndex := 0, scale := 1, rotation := 0, pagesRotation := [],
    rotatedPage := none, scrollMode := ScrollMode.Vertical }

/-- A concrete two-page render queue: both pages not rendered, page 1 more
visible than page 0, range `[0, 1]`. -/
def exQueue : RenderQueue :=
  { numPages := 2,
    statuses := fun _ => RenderStatus.notRendered,
    visibilities := fun i => if i = 1 then 2 else if i = 0 then 1 else 0,
    startRange := 0, endRange := 1 }

/-- A concrete component state built on `exQueue`. -/
def exState : InnerState :=
  { numPages := 2, currentPage := 0, rotation := 0, pagesRotationChanged := false,
    pagesRotation := [], currentScrollMode := ScrollMode.Vertical, scale := 1,
    stateRef := exViewerState, keepSpecialZoomLevel := none, renderPageIndex := -1,
    renderQueueKey := 0, renderQueue := exQueue }

/-- A concrete state in which page 1 is currently rendering. -/
def exStateRendering : InnerState :=
  { exState with renderQueue := markRendering exQueue 1 }

/-- Concrete virtual items for the witnesses: page 0 is half as visible as
page 1. -/
def exItems : List VirtualItem :=
  [{ index := 0, visibility := 1 }, { index := 1, visibility := 2 }]

/-!  ## Helper lemmas  -/

/-- `applyViewerStateChange` is a left fold of the optional hooks. -/
lemma applyViewerStateChange_eq_foldl (plugins : List Plugin) (v : ViewerState) :
    applyViewerStateChange plugins v =
      List.foldl
        (fun st p =>
          match p.onViewerStateChange with
          | some f => f st
          | none => st)
        v plugins := by
  induction plugins generalizing v with
  | nil => rfl
  | cons p ps ih =>
    cases h : p.onViewerStateChange <;>
      simp [applyViewerStateChange, h, ih]

/-- When no plugin has an `onViewerStateChange` hook, the threaded state is
returned unchanged. -/
lemma applyViewerStateChange_of_no_hooks (plugins : List Plugin) (v : ViewerState)
    (h : ∀ p ∈ plugins, p.onViewerStateChange = none) :
    applyViewerStateChange plugins v = v := by
  induction plugins generalizing v with
  | nil => rfl
  | cons p ps ih =>
    have hp : p.onViewerStateChange = none := h p (List.mem_cons_self p ps)
    simp [applyViewerStateChange, hp]
    exact ih v (fun q hq => h q (List.mem_cons_of_mem p hq))

/-- One `rotateUpdate` step preserves "multiple of 90 in `[-360, 360]`". -/
lemma rotateUpdate_preserves (r : Int) (d : RotateDirection)
    (h : r % 90 = 0 ∧ -360 ≤ r ∧ r ≤ 360) :
    rotateUpdate r d % 90 = 0 ∧ -360 ≤ rotateUpdate r d ∧ rotateUpdate r d ≤ 360 := by
  cases d <;> simp [rotateUpdate] <;> split_ifs <;> omega

/-- Folding `rotateUpdate` preserves "multiple of 90 in `[-360, 360]`". -/
lemma foldl_rotateUpdate_preserves (dirs : List RotateDirection) (r : Int)
    (h : r % 90 = 0 ∧ -360 ≤ r ∧ r ≤ 360) :
    List.foldl rotateUpdate r dirs % 90 = 0 ∧
      -360 ≤ List.foldl rotateUpdate r dirs ∧ List.foldl rotateUpdate r dirs ≤ 360 := by
  induction dirs generalizing r with
  | nil => exact h
  | cons d ds ih => exact ih (rotateUpdate r d) (rotateUpdate_preserves r d h)

/-- Every call recorded by `callsFrom sel k` targets a plugin position `≥ k`. -/
lemma callsFrom_index_ge (sel : Plugin → Bool) (k : Nat) (ps : List Plugin) :
    ∀ c ∈ callsFrom sel k ps, k ≤ c.pluginIndex := by
  induction ps generalizing k with
  | nil => intro c hc; simp [callsFrom] at hc
  | cons p ps ih =>
    intro c hc
    simp only [callsFrom, List.mem_append] at hc
    by_cases hp : sel p = true
    · simp only [hp, if_true, List.mem_singleton] at hc
      rcases hc with hc | hc
      · simp [hc, callAt]
      · exact Nat.le_of_succ_le (ih (k + 1) c hc)
    · simp [hp] at hc
      exact Nat.le_of_succ_le (ih (k + 1) c hc)

/-- Every call recorded by `callsFrom` carries the `pluginMethods` object. -/
lemma callsFrom_methods (sel : Plugin → Bool) (k : Nat) (ps : List Plugin) :
    ∀ c ∈ callsFrom sel k ps, c.methods = pluginMethods := by
  induction ps generalizing k with
  | nil => intro c hc; simp [callsFrom] at hc
  | cons p ps ih =>
    intro c hc
    simp only [callsFrom, List.mem_append] at hc
    by_cases hp : sel p = true
    · simp only [hp, if_true, List.mem_singleton] at hc
      rcases hc with hc | hc
      · simp [hc, callAt]
      · exact ih (k + 1) c hc
    · simp [hp] at hc
      exact ih (k + 1) c hc

/-- The calls recorded by `callsFrom` are in strictly increasing plugin-array
order. -/
lemma callsFrom_chain (sel : Plugin → Bool) (k : Nat) (ps : List Plugin) :
    List.Chain' (fun a b => a.pluginIndex < b.pluginIndex) (callsFrom sel k ps) := by
  induction ps generalizing k with
  | nil => simp [callsFrom]
  | cons p ps ih =>
    by_cases hp : sel p = true
    · simp only [callsFrom, hp, if_true, List.singleton_append]
      rw [List.chain'_cons']
      refine ⟨?_, ih (k + 1)⟩
      intro b hb
      have hmem : b ∈ callsFrom sel (k + 1) ps := List.mem_of_mem_head? hb
      have := callsFrom_index_ge sel (k + 1) ps b hmem
      exact Nat.lt_of_lt_of_le (Nat.lt_succ_self k) this
    · simpa [callsFrom, hp] using ih (k + 1)

/-- A call with position below `k` never appears in `callsFrom sel k`. -/
lemma callsFrom_count_lt (sel : Plugin → Bool) (k j : Nat) (ps : List Plugin)
    (hj : j < k) :
    List.count (callAt j) (callsFrom sel k ps) = 0 := by
  rw [List.count_eq_zero]
  intro hmem
  have := callsFrom_index_ge sel k ps _ hmem
  simp [callAt] at this
  omega

/-- The call for the plugin at position `k + j` appears exactly once in
`callsFrom sel k ps` when its hook is present, never otherwise. -/
lemma callsFrom_count (sel : Plugin → Bool) (ps : List Plugin) :
    ∀ (k j : Nat) (h : j < ps.length),
      List.count (callAt (k + j)) (callsFrom sel k ps) =
        if sel (ps.get ⟨j, h⟩) then 1 else 0 := by
  induction ps with
  | nil => intro k j h; simp at h
  | cons p ps ih =>
    intro k j h
    cases j with
    | zero =>
      simp only [callsFrom, List.count_append, List.get, Nat.add_zero]
      have htail : List.count (callAt k) (callsFrom sel (k + 1) ps) = 0 :=
        callsFrom_count_lt sel (k + 1) k ps (Nat.lt_succ_self k)
      by_cases hp : sel p = true <;> simp [hp, htail]
    | succ j =>
      have hj : j < ps.length := Nat.lt_of_succ_lt_succ h
      have hidx : k + (j + 1) = (k + 1) + j := by omega
      simp only [callsFrom, List.count_append, List.get]
      have hhead : List.count (callAt (k + (j + 1)))
          (if sel p then [callAt k] else []) = 0 := by
        by_cases hp : sel p = true <;>
          simp [hp, callAt, PluginCall.mk.injEq]
      rw [hhead, hidx, ih (k + 1) j hj]
      simp

/-- Membership in `pageList n` is being a page index: `0 ≤ j < n`. -/
lemma mem_pageList_iff (n : Nat) (j : Int) :
    j ∈ pageList n ↔ 0 ≤ j ∧ j < (n : Int) := by
  unfold pageList
  rw [List.mem_map]
  constructor
  · rintro ⟨i, hi, rfl⟩
    rw [List.mem_range] at hi
    simp only [Int.ofNat_eq_natCast]
    omega
  · rintro ⟨h0, hn⟩
    refine ⟨j.toNat, ?_, ?_⟩
    · rw [List.mem_range]
      omega
    · simp only [Int.ofNat_eq_natCast]
      omega

/-- Membership in `candidates q`: a page index that is not rendered and has
positive visibility. -/
lemma mem_candidates_iff (q : RenderQueue) (j : Int) :
    j ∈ candidates q ↔
      0 ≤ j ∧ j < (q.numPages : Int) ∧
        q.statuses j = RenderStatus.notRendered ∧ 0 < q.visibilities j := by
  simp only [candidates, List.mem_filter, mem_pageList_iff, decide_eq_true_eq]
  tauto

/-- Every candidate is nonnegative. -/
lemma candidates_nonneg (q : RenderQueue) : ∀ j ∈ candidates q, 0 ≤ j :=
  fun j hj => ((mem_candidates_iff q j).mp hj).1

/-- The priority scan returns its accumulator or an element of the list. -/
lemma foldl_priorityStep_mem (q : RenderQueue) (l : List Int) :
    ∀ acc : Int,
      List.foldl (priorityStep q) acc l = acc ∨ List.foldl (priorityStep q) acc l ∈ l := by
  induction l with
  | nil => intro acc; left; rfl
  | cons i l ih =>
    intro acc
    rw [List.foldl_cons]
    have hstep : priorityStep q acc i = acc ∨ priorityStep q acc i = i := by
      unfold priorityStep; split_ifs <;> simp
    rcases ih (priorityStep q acc i) with h | h
    · rw [h]
      rcases hstep with h' | h'
      · exact Or.inl h'
      · right; rw [h']; exact List.mem_cons_self i l
    · exact Or.inr (List.mem_cons_of_mem i h)

/-- The priority scan keeps a nonnegative accumulator nonnegative when the
list holds page indices. -/
lemma foldl_priorityStep_nonneg (q : RenderQueue) (l : List Int) :
    ∀ acc : Int, 0 ≤ acc → (∀ j ∈ l, 0 ≤ j) →
      0 ≤ List.foldl (priorityStep q) acc l := by
  induction l with
  | nil => intro acc hacc _; exact hacc
  | cons i l ih =>
    intro acc hacc hl
    rw [List.foldl_cons]
    have hi : 0 ≤ i := hl i (List.mem_cons_self i l)
    have hstep : 0 ≤ priorityStep q acc i := by
      unfold priorityStep; split_ifs <;> omega
    exact ih (priorityStep q acc i) hstep (fun j hj => hl j (List.mem_cons_of_mem _ hj))

/-- Starting from `-1`, the priority scan returns `-1` only when the list is
empty. -/
lemma foldl_priorityStep_neg (q : RenderQueue) (l : List Int)
    (hl : ∀ j ∈ l, 0 ≤ j) (h : List.foldl (priorityStep q) (-1) l = -1) : l = [] := by
  cases l with
  | nil => rfl
  | cons i l =>
    exfalso
    rw [List.foldl_cons] at h
    have hi : 0 ≤ i := hl i (List.mem_cons_self i l)
    have hstep : priorityStep q (-1) i = i := by
      unfold priorityStep; rw [if_pos]; norm_num
    rw [hstep] at h
    have := foldl_priorityStep_nonneg q l i hi
      (fun j hj => hl j (List.mem_cons_of_mem _ hj))
    omega

/-- The scan's result has visibility at least that of a nonnegative
accumulator. -/
lemma foldl_priorityStep_vis_acc (q : RenderQueue) (l : List Int) :
    ∀ acc : Int, 0 ≤ acc → (∀ j ∈ l, 0 ≤ j) →
      q.visibilities acc ≤ q.visibilities (List.foldl (priorityStep q) acc l) := by
  induction l with
  | nil => intro acc _ _; exact le_refl _
  | cons i l ih =>
    intro acc hacc hl
    rw [List.foldl_cons]
    have hi : 0 ≤ i := hl i (List.mem_cons_self i l)
    have h1 : q.visibilities acc ≤ q.visibilities (priorityStep q acc i) := by
      unfold priorityStep
      split_ifs with h h'
      · exact absurd h (not_lt.mpr hacc)
      · exact le_of_lt h'
      · exact le_refl _
    have hstep : 0 ≤ priorityStep q acc i := by
      unfold priorityStep; split_ifs <;> omega
    exact le_trans h1
      (ih (priorityStep q acc i) hstep (fun j hj => hl j (List.mem_cons_of_mem _ hj)))

/-- Every list element's visibility is at most the scan result's. -/
lemma foldl_priorityStep_max (q : RenderQueue) (l : List Int) :
    ∀ acc : Int, (∀ j ∈ l, 0 ≤ j) →
      ∀ j ∈ l, q.visibilities j ≤ q.visibilities (List.foldl (priorityStep q) acc l) := by
  induction l with
  | nil => intro acc _ j hj; simp at hj
  | cons i l ih =>
    intro acc hl j hj
    rw [List.foldl_cons]
    have hi : 0 ≤ i := hl i (List.mem_cons_self i l)
    have hstep : 0 ≤ priorityStep q acc i := by
      unfold priorityStep; split_ifs <;> omega
    rcases List.mem_cons.mp hj with rfl | hj'
    · have h1 : q.visibilities j ≤ q.visibilities (priorityStep q acc j) := by
        unfold priorityStep
        split_ifs with h h'
        · exact le_refl _
        · exact le_refl _
        · exact le_of_not_lt h'
      exact le_trans h1
        (foldl_priorityStep_vis_acc q l (priorityStep q acc j) hstep
          (fun m hm => hl m (List.mem_cons_of_mem _ hm)))
    · exact ih (priorityStep q acc i) (fun m hm => hl m (List.mem_cons_of_mem _ hm)) j hj'

/-- When `getHighestPriorityPage` returns `-1`, no page is both unrendered and
visible. -/
lemma getHighestPriorityPage_neg (q : RenderQueue)
    (h : getHighestPriorityPage q = -1) :
    ∀ j : Int, 0 ≤ j → j < (q.numPages : Int) →
      q.statuses j = RenderStatus.notRendered → ¬0 < q.visibilities j := by
  intro j h0 hn hs hv
  have hnil : candidates q = [] :=
    foldl_priorityStep_neg q (candidates q) (candidates_nonneg q) h
  have hmem : j ∈ candidates q := (mem_candidates_iff q j).mpr ⟨h0, hn, hs, hv⟩
  rw [hnil] at hmem
  simp at hmem

/-- When `getHighestPriorityPage` finds a page, it is a visible unrendered
page of maximal visibility. -/
lemma getHighestPriorityPage_spec (q : RenderQueue)
    (h : 0 ≤ getHighestPriorityPage q) :
    getHighestPriorityPage q < (q.numPages : Int) ∧
    q.statuses (getHighestPriorityPage q) = RenderStatus.notRendered ∧
    0 < q.visibilities (getHighestPriorityPage q) ∧
    ∀ j : Int, 0 ≤ j → j < (q.numPages : Int) →
      q.statuses j = RenderStatus.notRendered → 0 < q.visibilities j →
      q.visibilities j ≤ q.visibilities (getHighestPriorityPage q) := by
  have hmem : getHighestPriorityPage q ∈ candidates q := by
    rcases foldl_priorityStep_mem q (candidates q) (-1) with hr | hr
    · exfalso
      have : getHighestPriorityPage q = -1 := hr
      omega
    · exact hr
  obtain ⟨h0, hn, hs, hv⟩ := (mem_candidates_iff q _).mp hmem
  refine ⟨hn, hs, hv, ?_⟩
  intro j hj0 hjn hjs hjv
  have hjmem : j ∈ candidates q := (mem_candidates_iff q j).mpr ⟨hj0, hjn, hjs, hjv⟩
  exact foldl_priorityStep_max q (candidates q) (-1) (candidates_nonneg q) j hjmem

/-- Recording a visibility changes only the `visibilities` field. -/
lemma recordVisibilityStep_fields (items : List VirtualItem) (q : RenderQueue) (i : Int) :
    (recordVisibilityStep items q i).statuses = q.statuses ∧
    (recordVisibilityStep items q i).startRange = q.startRange ∧
    (recordVisibilityStep items q i).endRange = q.endRange ∧
    (recordVisibilityStep items q i).numPages = q.numPages := by
  unfold recordVisibilityStep
  cases List.find? (fun item => item.index == i) items <;>
    exact ⟨rfl, rfl, rfl, rfl⟩

/-- The visibility-recording loop changes only the `visibilities` field. -/
lemma recordVisibilities_fields (items : List VirtualItem) (idxs : List Int) :
    ∀ q : RenderQueue,
      (recordVisibilities items q idxs).statuses = q.statuses ∧
      (recordVisibilities items q idxs).startRange = q.startRange ∧
      (recordVisibilities items q idxs).endRange = q.endRange ∧
      (recordVisibilities items q idxs).numPages = q.numPages := by
  induction idxs with
  | nil => intro q; exact ⟨rfl, rfl, rfl, rfl⟩
  | cons i idxs ih =>
    intro q
    have hstep := recordVisibilityStep_fields items q i
    have hrec := ih (recordVisibilityStep items q i)
    have hcons : recordVisibilities items q (i :: idxs) =
        recordVisibilities items (recordVisibilityStep items q i) idxs := rfl
    rw [hcons]
    exact ⟨hrec.1.trans hstep.1, hrec.2.1.trans hstep.2.1,
      hrec.2.2.1.trans hstep.2.2.1, hrec.2.2.2.trans hstep.2.2.2⟩

/-- The queue produced by the range effect has exactly the requested range,
and the statuses and page count of the original queue. -/
lemma rangedQueue_fields (q : RenderQueue) (s e : Int) (items : List VirtualItem) :
    (rangedQueue q s e items).startRange = s ∧
    (rangedQueue q s e items).endRange = e ∧
    (rangedQueue q s e items).statuses = q.statuses ∧
    (rangedQueue q s e items).numPages = q.numPages := by
  unfold rangedQueue
  have h := recordVisibilities_fields items (rangeList s e) (setRange q s e)
  exact ⟨h.2.1, h.2.2.1, h.1, h.2.2.2⟩

/-- The range effect is `renderNextPage` on `preRenderState`. -/
lemma updateVisibleRange_eq (plugins : List Plugin) (s : InnerState) (a b mv : Int)
    (items : List VirtualItem) :
    updateVisibleRange plugins s a b mv items =
      renderNextPage (preRenderState plugins s a b mv items) := rfl

/-- The queue `renderNextPage` sees inside the range effect. -/
lemma preRenderState_renderQueue (plugins : List Plugin) (s : InnerState) (a b mv : Int)
    (items : List VirtualItem) :
    (preRenderState plugins s a b mv items).renderQueue =
      rangedQueue s.renderQueue a b items := rfl

/-- The range effect does not itself touch `renderPageIndex` before
`renderNextPage`. -/
lemma preRenderState_renderPageIndex (plugins : List Plugin) (s : InnerState)
    (a b mv : Int) (items : List VirtualItem) :
    (preRenderState plugins s a b mv items).renderPageIndex = s.renderPageIndex := rfl

/-- `renderNextPage` as a case split on `scheduledPage`. -/
lemma renderNextPage_eq_scheduledPage (s : InnerState) :
    renderNextPage s =
      match scheduledPage s.renderQueue with
      | some p =>
        { s with renderQueue := markRendering s.renderQueue p, renderPageIndex := p }
      | none => s := by
  by_cases h : getHighestPriorityPage s.renderQueue > -1 ∧
      isInRange s.renderQueue (getHighestPriorityPage s.renderQueue) <;>
    simp [renderNextPage, scheduledPage, h]

/-- A scheduled page is the queue's highest priority page and lies in range. -/
lemma scheduledPage_some (q : RenderQueue) (p : Int) (h : scheduledPage q = some p) :
    p = getHighestPriorityPage q ∧ getHighestPriorityPage q > -1 ∧ isInRange q p := by
  have h' : (if getHighestPriorityPage q > -1 ∧ isInRange q (getHighestPriorityPage q)
      then some (getHighestPriorityPage q) else none) = some p := h
  split at h'
  next hc =>
    injection h' with h2
    subst h2
    exact ⟨rfl, hc.1, hc.2⟩
  next hc => exact absurd h' (by simp)

/-- The page the range effect schedules (when any) is in the queue it built,
and the effect otherwise leaves `renderPageIndex` alone. -/
lemma updateVisibleRange_renderPageIndex (plugins : List Plugin) (s : InnerState)
    (a b mv p : Int) (items : List VirtualItem)
    (h : (updateVisibleRange plugins s a b mv items).renderPageIndex = p) :
    p = s.renderPageIndex ∨ scheduledPage (rangedQueue s.renderQueue a b items) = some p := by
  rw [updateVisibleRange_eq, renderNextPage_eq_scheduledPage] at h
  cases hsp : scheduledPage (preRenderState plugins s a b mv items).renderQueue with
  | none =>
    rw [hsp] at h
    simp only [] at h
    exact Or.inl (h.symm.trans (preRenderState_renderPageIndex plugins s a b mv items))
  | some j =>
    rw [hsp] at h
    simp only [] at h
    rw [preRenderState_renderQueue] at hsp
    exact Or.inr (h ▸ hsp)

/-- `markRendering` pointwise. -/
lemma markRendering_statuses (q : RenderQueue) (p i : Int) :
    (markRendering q p).statuses i =
      if i = p then RenderStatus.rendering else q.statuses i := rfl

/-- `markRendered` pointwise. -/
lemma markRendered_statuses (q : RenderQueue) (p i : Int) :
    (markRendered q p).statuses i =
      if i = p then RenderStatus.rendered else q.statuses i := rfl

/-- `renderNextPage` either leaves a page's status alone or sets the scheduled
(previously not-rendered) page to rendering. -/
lemma renderNextPage_statuses (s : InnerState) (i : Int) :
    (renderNextPage s).renderQueue.statuses i = s.renderQueue.statuses i ∨
    ((renderNextPage s).renderQueue.statuses i = RenderStatus.rendering ∧
      scheduledPage s.renderQueue = some i ∧
      s.renderQueue.statuses i = RenderStatus.notRendered) := by
  rw [renderNextPage_eq_scheduledPage]
  cases hsp : scheduledPage s.renderQueue with
  | none => exact Or.inl rfl
  | some j =>
    by_cases hij : i = j
    · subst hij
      right
      obtain ⟨hpe, hgt, hin⟩ := scheduledPage_some _ _ hsp
      have hnr : s.renderQueue.statuses i = RenderStatus.notRendered := by
        rw [hpe]
        exact (getHighestPriorityPage_spec s.renderQueue (by omega)).2.1
      refine ⟨?_, rfl, hnr⟩
      show (markRendering s.renderQueue i).statuses i = RenderStatus.rendering
      rw [markRendering_statuses, if_pos rfl]
    · left
      show (markRendering s.renderQueue j).statuses i = s.renderQueue.statuses i
      rw [markRendering_statuses, if_neg hij]

/-- Completing a scheduled page sets exactly that page to rendered. -/
lemma completeStep_statuses (q : RenderQueue) (np j : Int) :
    (markRendered (markRendering q np) np).statuses j =
      if j = np then RenderStatus.rendered else q.statuses j := by
  rw [markRendered_statuses]
  by_cases h : j = np
  · rw [if_pos h, if_pos h]
  · rw [if_neg h, if_neg h, markRendering_statuses, if_neg h]

/-- Completing a scheduled page leaves the visibilities untouched. -/
lemma completeStep_visibilities (q : RenderQueue) (np : Int) :
    (markRendered (markRendering q np) np).visibilities = q.visibilities := rfl

/-- Completing a page removes exactly it from the candidates. -/
lemma candidates_completeStep (q : RenderQueue) (np : Int) :
    candidates (markRendered (markRendering q np) np) =
      List.filter (fun j => decide ¬j = np) (candidates q) := by
  unfold candidates
  have hnum : (markRendered (markRendering q np) np).numPages = q.numPages := rfl
  rw [hnum, List.filter_filter]
  apply List.filter_congr
  intro j _
  by_cases h : j = np
  · subst h
    simp [completeStep_statuses, completeStep_visibilities]
  · simp [completeStep_statuses, completeStep_visibilities, h]

/-- There are at most `numPages` candidates. -/
lemma candidates_length_le (q : RenderQueue) : (candidates q).length ≤ q.numPages := by
  unfold candidates
  have h := List.length_filter_le
    (fun i => decide (q.statuses i = RenderStatus.notRendered ∧ 0 < q.visibilities i))
    (pageList q.numPages)
  have hlen : (pageList q.numPages).length = q.numPages := by
    unfold pageList
    rw [List.length_map, List.length_range]
  omega

/-- The render/complete cycle never un-renders a rendered page. -/
lemma renderLoop_preserves_rendered (fuel : Nat) :
    ∀ (q : RenderQueue) (p : Int), q.statuses p = RenderStatus.rendered →
      (renderLoop fuel q).statuses p = RenderStatus.rendered := by
  induction fuel with
  | zero => intro q p hp; exact hp
  | succ n ih =>
    intro q p hp
    have hstep : renderLoop (n + 1) q =
        (if getHighestPriorityPage q > -1 ∧
            isInRange q (getHighestPriorityPage q) then
          renderLoop n (markRendered (markRendering q (getHighestPriorityPage q))
            (getHighestPriorityPage q))
        else q) := rfl
    rw [hstep]
    split_ifs with hc
    · apply ih
      rw [completeStep_statuses]
      split_ifs with h
      · rfl
      · exact hp
    · exact hp

/-- With enough fuel, the render/complete cycle renders every candidate,
provided every visible page is inside the render range. -/
lemma renderLoop_renders_candidates :
    ∀ (fuel : Nat) (q : RenderQueue),
      (candidates q).length ≤ fuel →
      (∀ j : Int, 0 ≤ j → j < (q.numPages : Int) → 0 < q.visibilities j →
        isInRange q j) →
      ∀ p ∈ candidates q, (renderLoop fuel q).statuses p = RenderStatus.rendered := by
  intro fuel
  induction fuel with
  | zero =>
    intro q hlen _ p hp
    have hnil : candidates q = [] := List.eq_nil_of_length_eq_zero (Nat.le_zero.mp hlen)
    rw [hnil] at hp
    simp at hp
  | succ n ih =>
    intro q hlen hrange p hp
    have hnp_mem : getHighestPriorityPage q ∈ candidates q := by
      rcases foldl_priorityStep_mem q (candidates q) (-1) with h | h
      · exfalso
        have hnil : candidates q = [] :=
          foldl_priorityStep_neg q (candidates q) (candidates_nonneg q) h
        rw [hnil] at hp
        simp at hp
      · exact h
    obtain ⟨hnp0, hnpn, hnps, hnpv⟩ := (mem_candidates_iff q _).mp hnp_mem
    have hin : isInRange q (getHighestPriorityPage q) := hrange _ hnp0 hnpn hnpv
    have hstep : renderLoop (n + 1) q =
        renderLoop n (markRendered (markRendering q (getHighestPriorityPage q))
          (getHighestPriorityPage q)) := by
      have h0 : renderLoop (n + 1) q =
          (if getHighestPriorityPage q > -1 ∧
              isInRange q (getHighestPriorityPage q) then
            renderLoop n (markRendered (markRendering q (getHighestPriorityPage q))
              (getHighestPriorityPage q))
          else q) := rfl
      rw [h0, if_pos ⟨by omega, hin⟩]
    rw [hstep]
    by_cases hpn : p = getHighestPriorityPage q
    · apply renderLoop_preserves_rendered
      rw [completeStep_statuses, if_pos hpn]
    · apply ih
      · have hlt : (candidates (markRendered (markRendering q (getHighestPriorityPage q))
            (getHighestPriorityPage q))).length < (candidates q).length := by
          rw [candidates_completeStep]
          apply List.length_filter_lt_length_iff_exists.mpr
          exact ⟨getHighestPriorityPage q, hnp_mem, by simp⟩
        omega
      · intro j hj0 hjn hjv
        exact hrange j hj0 hjn hjv
      · rw [candidates_completeStep, List.mem_filter]
        exact ⟨hp, by simp [hpn]⟩

/-!  ## Claims  -/

/-- C1: `renderNextPage` schedules (marks as rendering and sets as the render
page index) exactly the page returned by `getHighestPriorityPage` — a
visible-but-unrendered page of greatest visibility fraction — and when that
result is `-1` (no such page: first conjunct) or out of the render range, no
page is scheduled and the state, queue included, is unchanged. -/
theorem c1_renderNextPage_schedules_priority (s : InnerState) :
    (getHighestPriorityPage s.renderQueue = -1 →
      ∀ j : Int, 0 ≤ j → j < (s.renderQueue.numPages : Int) →
        s.renderQueue.statuses j = RenderStatus.notRendered →
        ¬0 < s.renderQueue.visibilities j) ∧
    (0 ≤ getHighestPriorityPage s.renderQueue →
      getHighestPriorityPage s.renderQueue < (s.renderQueue.numPages : Int) ∧
      s.renderQueue.statuses (getHighestPriorityPage s.renderQueue) =
        RenderStatus.notRendered ∧
      0 < s.renderQueue.visibilities (getHighestPriorityPage s.renderQueue) ∧
      ∀ j : Int, 0 ≤ j → j < (s.renderQueue.numPages : Int) →
        s.renderQueue.statuses j = RenderStatus.notRendered →
        0 < s.renderQueue.visibilities j →
        s.renderQueue.visibilities j ≤
          s.renderQueue.visibilities (getHighestPriorityPage s.renderQueue)) ∧
    (getHighestPriorityPage s.renderQueue > -1 ∧
        isInRange s.renderQueue (getHighestPriorityPage s.renderQueue) →
      renderNextPage s =
        { s with
            renderQueue :=
              markRendering s.renderQueue (getHighestPriorityPage s.renderQueue),
            renderPageIndex := getHighestPriorityPage s.renderQueue }) ∧
    (¬(getHighestPriorityPage s.renderQueue > -1 ∧
        isInRange s.renderQueue (getHighestPriorityPage s.renderQueue)) →
      renderNextPage s = s) := by
  refine ⟨getHighestPriorityPage_neg s.renderQueue,
    getHighestPriorityPage_spec s.renderQueue, ?_, ?_⟩
  · intro h
    simp [renderNextPage, h]
  · intro h
    simp [renderNextPage, h]

/-- Witness for C1 on `exState`: page 1 (visibility 2, above page 0's 1) is
scheduled. -/
theorem c1_renderNextPage_schedules_priority_witness :
    (0 ≤ getHighestPriorityPage exState.renderQueue ∧
      exState.renderQueue.statuses (getHighestPriorityPage exState.renderQueue) =
        RenderStatus.notRendered ∧
      exState.renderQueue.visibilities 0 ≤
        exState.renderQueue.visibilities (getHighestPriorityPage exState.renderQueue)) ∧
    renderNextPage exState =
      { exState with
          renderQueue :=
            markRendering exState.renderQueue (getHighestPriorityPage exState.renderQueue),
          renderPageIndex := getHighestPriorityPage exState.renderQueue } := by
  have h := c1_renderNextPage_schedules_priority exState
  exact ⟨⟨by decide, (h.2.1 (by decide)).2.1,
      (h.2.1 (by decide)).2.2.2 0 (by decide) (by decide) (by decide) (by decide)⟩,
    h.2.2.1 ⟨by decide, by decide⟩⟩

/-- C2: the render range extends the visible window `[startIndex, endIndex]`
by at most `NUM_OVERSCAN_PAGES = 3` pages on each side, clamped to valid page
indices, and `renderNextPage` (inside the range effect) only schedules pages
inside that range. -/
theorem c2_overscan_range (plugins : List Plugin) (s : InnerState)
    (startIndex endIndex maxVis p : Int) (items : List VirtualItem) :
    setStartRange startIndex = max (startIndex - 3) 0 ∧
    setEndRange s.numPages endIndex = min (endIndex + 3) ((s.numPages : Int) - 1) ∧
    (scheduledPage (rangedQueue s.renderQueue (setStartRange startIndex)
        (setEndRange s.numPages endIndex) items) = some p →
      max (startIndex - 3) 0 ≤ p ∧ p ≤ min (endIndex + 3) ((s.numPages : Int) - 1)) ∧
    ((updateVisibleRange plugins s (setStartRange startIndex)
        (setEndRange s.numPages endIndex) maxVis items).renderPageIndex = p →
      p = s.renderPageIndex ∨
        (max (startIndex - 3) 0 ≤ p ∧ p ≤ min (endIndex + 3) ((s.numPages : Int) - 1))) := by
  have hf := rangedQueue_fields s.renderQueue (setStartRange startIndex)
    (setEndRange s.numPages endIndex) items
  have hsched : scheduledPage (rangedQueue s.renderQueue (setStartRange startIndex)
      (setEndRange s.numPages endIndex) items) = some p →
      max (startIndex - 3) 0 ≤ p ∧ p ≤ min (endIndex + 3) ((s.numPages : Int) - 1) := by
    intro hp
    obtain ⟨hpe, hgt, hin⟩ := scheduledPage_some _ _ hp
    have hin' : (rangedQueue s.renderQueue (setStartRange startIndex)
          (setEndRange s.numPages endIndex) items).startRange ≤ p ∧
        p ≤ (rangedQueue s.renderQueue (setStartRange startIndex)
          (setEndRange s.numPages endIndex) items).endRange := hin
    obtain ⟨hl, hr⟩ := hin'
    rw [hf.1] at hl
    rw [hf.2.1] at hr
    exact ⟨hl, hr⟩
  refine ⟨rfl, rfl, hsched, ?_⟩
  intro h
  rcases updateVisibleRange_renderPageIndex plugins s (setStartRange startIndex)
      (setEndRange s.numPages endIndex) maxVis p items h with h' | h'
  · exact Or.inl h'
  · exact Or.inr (hsched h')

/-- Witness for C2 on `exState`: with window `[0, 1]` of a 2-page document,
the scheduled page 1 lies inside the clamped range. -/
theorem c2_overscan_range_witness :
    (max ((0 : Int) - 3) 0 ≤ 1 ∧ (1 : Int) ≤ min (1 + 3) ((exState.numPages : Int) - 1)) ∧
    ((1 : Int) = exState.renderPageIndex ∨
      (max ((0 : Int) - 3) 0 ≤ 1 ∧
        (1 : Int) ≤ min (1 + 3) ((exState.numPages : Int) - 1))) := by
  have h := c2_overscan_range [] exState 0 1 1 1 exItems
  exact ⟨h.2.2.1 (by decide), h.2.2.2 (by decide)⟩

/-- C3: the per-page lifecycle is not-rendered → rendering → rendered:
`renderNextPage` moves the scheduled page from not-rendered to rendering and
touches no other page; `handlePageRenderCompleted` moves the completed
(rendering) page to rendered and then schedules the next page; `rotate` and
(non-early-returning) `zoom` reset every page to not-rendered via
`markNotRendered`; no other operation moves a page back to not-rendered, and
no operation moves a page directly from not-rendered to rendered
(`rotatePage` only ever re-marks its target page as rendering). -/
theorem c3_render_lifecycle (plugins : List Plugin) (calcScale : SpecialZoomLevel → ℚ)
    (pagesEleExists : Bool) (s : InnerState) (newScale : ℚ ⊕ SpecialZoomLevel)
    (d : RotateDirection) (pageIdx a b mv p i : Int) (items : List VirtualItem) :
    (scheduledPage s.renderQueue = some p →
      s.renderQueue.statuses p = RenderStatus.notRendered ∧
      (renderNextPage s).renderQueue.statuses p = RenderStatus.rendering ∧
      ∀ j : Int, j ≠ p →
        (renderNextPage s).renderQueue.statuses j = s.renderQueue.statuses j) ∧
    (scheduledPage s.renderQueue = none → renderNextPage s = s) ∧
    (s.renderQueue.statuses p = RenderStatus.rendering →
      handlePageRenderCompleted s p =
        renderNextPage { s with renderQueue := markRendered s.renderQueue p } ∧
      (handlePageRenderCompleted s p).renderQueue.statuses p = RenderStatus.rendered) ∧
    (rotate plugins s d).1.renderQueue.statuses i = RenderStatus.notRendered ∧
    ((if pagesEleExists then
        match newScale with
        | Sum.inl v => v
        | Sum.inr lvl => calcScale lvl
      else 1) ≠ s.stateRef.scale →
      (zoom plugins calcScale pagesEleExists s newScale).1.renderQueue.statuses i =
        RenderStatus.notRendered) ∧
    ((renderNextPage s).renderQueue.statuses i = RenderStatus.notRendered →
      s.renderQueue.statuses i = RenderStatus.notRendered) ∧
    (s.renderQueue.statuses i = RenderStatus.notRendered →
      (renderNextPage s).renderQueue.statuses i ≠ RenderStatus.rendered) ∧
    (s.renderQueue.statuses p = RenderStatus.rendering →
      s.renderQueue.statuses i = RenderStatus.notRendered →
      (handlePageRenderCompleted s p).renderQueue.statuses i ≠ RenderStatus.rendered) ∧
    ((handlePageRenderCompleted s p).renderQueue.statuses i = RenderStatus.notRendered →
      s.renderQueue.statuses i = RenderStatus.notRendered) ∧
    (rotatePage plugins s pageIdx d).1.renderQueue.statuses i =
      (if i = pageIdx then RenderStatus.rendering else s.renderQueue.statuses i) ∧
    (s.renderQueue.statuses i = RenderStatus.notRendered →
      (updateVisibleRange plugins s a b mv items).renderQueue.statuses i ≠
        RenderStatus.rendered) ∧
    ((updateVisibleRange plugins s a b mv items).renderQueue.statuses i =
        RenderStatus.notRendered →
      s.renderQueue.statuses i = RenderStatus.notRendered) := by
  have hpre : (preRenderState plugins s a b mv items).renderQueue.statuses i =
      s.renderQueue.statuses i := by
    rw [preRenderState_renderQueue]
    exact congrFun (rangedQueue_fields s.renderQueue a b items).2.2.1 i
  refine ⟨?_, ?_, ?_, ?_, ?_, ?_, ?_, ?_, ?_, ?_, ?_, ?_⟩
  · intro hp
    obtain ⟨hpe, hgt, hin⟩ := scheduledPage_some _ _ hp
    have hnr : s.renderQueue.statuses p = RenderStatus.notRendered := by
      rw [hpe]
      exact (getHighestPriorityPage_spec s.renderQueue (by omega)).2.1
    refine ⟨hnr, ?_, ?_⟩
    · rw [renderNextPage_eq_scheduledPage, hp]
      show (markRendering s.renderQueue p).statuses p = RenderStatus.rendering
      rw [markRendering_statuses, if_pos rfl]
    · intro j hj
      rw [renderNextPage_eq_scheduledPage, hp]
      show (markRendering s.renderQueue p).statuses j = s.renderQueue.statuses j
      rw [markRendering_statuses, if_neg hj]
  · intro hp
    rw [renderNextPage_eq_scheduledPage, hp]
  · intro _
    refine ⟨rfl, ?_⟩
    have hren : (markRendered s.renderQueue p).statuses p = RenderStatus.rendered := by
      rw [markRendered_statuses, if_pos rfl]
    rcases renderNextPage_statuses { s with renderQueue := markRendered s.renderQueue p }
        p with h | h
    · show (renderNextPage { s with renderQueue := markRendered s.renderQueue p
          }).renderQueue.statuses p = RenderStatus.rendered
      rw [h]
      exact hren
    · exact absurd (hren.symm.trans h.2.2) (by simp)
  · rfl
  · intro hne
    have hq : (zoom plugins calcScale pagesEleExists s newScale).1.renderQueue =
        markNotRendered s.renderQueue := by
      simp [zoom, hne, setViewerStateOp]
    rw [hq]
    rfl
  · intro ha
    rcases renderNextPage_statuses s i with h | h
    · rwa [h] at ha
    · rw [h.1] at ha
      exact RenderStatus.noConfusion ha
  · intro hnr ha
    rcases renderNextPage_statuses s i with h | h
    · rw [h] at ha
      exact RenderStatus.noConfusion (hnr.symm.trans ha)
    · rw [h.1] at ha
      exact RenderStatus.noConfusion ha
  · intro hrendering hnr ha
    have hip : i ≠ p := by
      intro he
      rw [he] at hnr
      exact RenderStatus.noConfusion (hnr.symm.trans hrendering)
    have hs' : (markRendered s.renderQueue p).statuses i = RenderStatus.notRendered := by
      rw [markRendered_statuses, if_neg hip]
      exact hnr
    have ha' : (renderNextPage { s with renderQueue := markRendered s.renderQueue p
        }).renderQueue.statuses i = RenderStatus.rendered := ha
    rcases renderNextPage_statuses { s with renderQueue := markRendered s.renderQueue p }
        i with h | h
    · rw [h] at ha'
      exact RenderStatus.noConfusion (hs'.symm.trans ha')
    · rw [h.1] at ha'
      exact RenderStatus.noConfusion ha'
  · intro ha
    have ha' : (renderNextPage { s with renderQueue := markRendered s.renderQueue p
        }).renderQueue.statuses i = RenderStatus.notRendered := ha
    rcases renderNextPage_statuses { s with renderQueue := markRendered s.renderQueue p }
        i with h | h
    · have key : (if i = p then RenderStatus.rendered else s.renderQueue.statuses i) =
          RenderStatus.notRendered := h.symm.trans ha'
      by_cases hip : i = p
      · rw [if_pos hip] at key
        exact RenderStatus.noConfusion key
      · rw [if_neg hip] at key
        exact key
    · rw [h.1] at ha'
      exact RenderStatus.noConfusion ha'
  · rfl
  · intro hnr ha
    have ha' : (renderNextPage (preRenderState plugins s a b mv items
        )).renderQueue.statuses i = RenderStatus.rendered := by
      rw [← updateVisibleRange_eq]
      exact ha
    rcases renderNextPage_statuses (preRenderState plugins s a b mv items) i with h | h
    · rw [h, hpre] at ha'
      exact RenderStatus.noConfusion (hnr.symm.trans ha')
    · rw [h.1] at ha'
      exact RenderStatus.noConfusion ha'
  · intro ha
    have ha' : (renderNextPage (preRenderState plugins s a b mv items
        )).renderQueue.statuses i = RenderStatus.notRendered := by
      rw [← updateVisibleRange_eq]
      exact ha
    rcases renderNextPage_statuses (preRenderState plugins s a b mv items) i with h | h
    · rw [h, hpre] at ha'
      exact ha'
    · rw [h.1] at ha'
      exact RenderStatus.noConfusion ha'

/-- Witness for C3: page 1 goes not-rendered → rendering on scheduling,
rendering → rendered on completion, and rotate/zoom reset page 0 to
not-rendered. -/
theorem c3_render_lifecycle_witness :
    (exState.renderQueue.statuses 1 = RenderStatus.notRendered ∧
      (renderNextPage exState).renderQueue.statuses 1 = RenderStatus.rendering) ∧
    (handlePageRenderCompleted exStateRendering 1).renderQueue.statuses 1 =
      RenderStatus.rendered ∧
    (rotate [] exState RotateDirection.Forward).1.renderQueue.statuses 0 =
      RenderStatus.notRendered ∧
    (zoom [] (fun _ => 1) true exState (Sum.inl 2)).1.renderQueue.statuses 0 =
      RenderStatus.notRendered := by
  have h1 := c3_render_lifecycle [] (fun _ => 1) true exState (Sum.inl 2)
    RotateDirection.Forward 0 0 1 1 1 0 exItems
  have h2 := c3_render_lifecycle [] (fun _ => 1) true exStateRendering (Sum.inl 2)
    RotateDirection.Forward 0 0 1 1 1 1 exItems
  refine ⟨?_, ?_, h1.2.2.2.1, ?_⟩
  · have h := h1.1 (by decide)
    exact ⟨h.1, h.2.1⟩
  · exact (h2.2.2.1 (by decide)).2
  · exact h1.2.2.2.2.1 (by decide)

/-- C4: assuming every scheduled render completes (each `renderLoop` step is
one `renderNextPage` schedule followed by its `handlePageRenderCompleted`,
which immediately schedules the next highest-priority unrendered in-range
page), every page that stays visible (positive visibility) — with every
visible page inside the render range, as the range effect records — is
rendered after at most `numPages` completions: partially visible content never
stalls. -/
theorem c4_visible_eventually_rendered (q : RenderQueue) (p : Int)
    (hrange : ∀ j : Int, 0 ≤ j → j < (q.numPages : Int) → 0 < q.visibilities j →
      isInRange q j)
    (hp0 : 0 ≤ p) (hpn : p < (q.numPages : Int)) (hvis : 0 < q.visibilities p)
    (hnr : q.statuses p ≠ RenderStatus.rendering) :
    (renderLoop q.numPages q).statuses p = RenderStatus.rendered := by
  cases hs : q.statuses p with
  | notRendered =>
    exact renderLoop_renders_candidates q.numPages q (candidates_length_le q) hrange p
      ((mem_candidates_iff q p).mpr ⟨hp0, hpn, hs, hvis⟩)
  | rendering => exact absurd hs hnr
  | rendered => exact renderLoop_preserves_rendered q.numPages q p hs

/-- Witness for C4: on the two-page queue, the less visible page 0 is rendered
by the loop as well. -/
theorem c4_visible_eventually_rendered_witness :
    (renderLoop exQueue.numPages exQueue).statuses 0 = RenderStatus.rendered := by
  apply c4_visible_eventually_rendered exQueue 0 ?_ (by decide) (by decide) (by decide)
    (by decide)
  intro j h0 hn _
  have he : exQueue.endRange = 1 := rfl
  have hc : (exQueue.numPages : Int) = 2 := rfl
  exact ⟨h0, by omega⟩

/-- C5: `setViewerState` computes the stored viewer state as a left fold of the
plugins' `onViewerStateChange` hooks, in plugins-array order, and a plugin
without the hook leaves the state unchanged at its position. -/
theorem c5_setViewerState_foldl (plugins : List Plugin) (s : InnerState) (v : ViewerState)
    (p : Plugin) (ps : List Plugin) (st : ViewerState)
    (hp : p.onViewerStateChange = none) :
    setViewerStateOp plugins s v =
      { s with
        stateRef :=
          List.foldl
            (fun st pl =>
              match pl.onViewerStateChange with
              | some f => f st
              | none => st)
            v plugins } ∧
    applyViewerStateChange (p :: ps) st = applyViewerStateChange ps st := by
  constructor
  · simp [setViewerStateOp, applyViewerStateChange_eq_foldl]
  · simp [applyViewerStateChange, hp]

/-- Witness for C5 at a concrete plugin list. -/
theorem c5_setViewerState_foldl_witness :
    setViewerStateOp [] exState exViewerState =
      { exState with
        stateRef :=
          List.foldl
            (fun st (pl : Plugin) =>
              match pl.onViewerStateChange with
              | some f => f st
              | none => st)
            exViewerState [] } ∧
    applyViewerStateChange
        [{ hasInstall := false, hasUninstall := false, onViewerStateChange := none }]
        exViewerState =
      applyViewerStateChange [] exViewerState := by
  exact c5_setViewerState_foldl []
    exState exViewerState
    { hasInstall := false, hasUninstall := false, onViewerStateChange := none } []
    exViewerState rfl

/-- C6: on mount, every plugin with an `install` hook is installed exactly
once, in plugins-array order, with the `pluginMethods` object exposing exactly
`getPagesContainer`, `getViewerState`, `jumpToDestination`, `jumpToPage`,
`openFile`, `rotate`, `rotatePage`, `setViewerState`, `switchScrollMode` and
`zoom`; on teardown every plugin with an `uninstall` hook is uninstalled with
that same object, in plugins-array order. -/
theorem c6_plugin_install_uninstall (plugins : List Plugin) (j : Nat)
    (h : j < plugins.length) :
    pluginMethods =
      [PluginMethod.getPagesContainer, PluginMethod.getViewerState,
        PluginMethod.jumpToDestination, PluginMethod.jumpToPage, PluginMethod.openFile,
        PluginMethod.rotate, PluginMethod.rotatePage, PluginMethod.setViewerState,
        PluginMethod.switchScrollMode, PluginMethod.zoom] ∧
    (∀ c ∈ installPlugins plugins, c.methods = pluginMethods) ∧
    (∀ c ∈ uninstallPlugins plugins, c.methods = pluginMethods) ∧
    List.Chain' (fun a b => a.pluginIndex < b.pluginIndex) (installPlugins plugins) ∧
    List.Chain' (fun a b => a.pluginIndex < b.pluginIndex) (uninstallPlugins plugins) ∧
    List.count (callAt j) (installPlugins plugins) =
      (if (plugins.get ⟨j, h⟩).hasInstall then 1 else 0) ∧
    List.count (callAt j) (uninstallPlugins plugins) =
      (if (plugins.get ⟨j, h⟩).hasUninstall then 1 else 0) := by
  refine ⟨rfl, callsFrom_methods _ 0 plugins, callsFrom_methods _ 0 plugins,
    callsFrom_chain _ 0 plugins, callsFrom_chain _ 0 plugins, ?_, ?_⟩
  · have := callsFrom_count (fun p => p.hasInstall) plugins 0 j h
    simpa using this
  · have := callsFrom_count (fun p => p.hasUninstall) plugins 0 j h
    simpa using this

/-- Witness for C6: a single plugin with both hooks is installed and
uninstalled exactly once. -/
theorem c6_plugin_install_uninstall_witness :
    List.count (callAt 0) (installPlugins [exPlugin]) = 1 ∧
    List.count (callAt 0) (uninstallPlugins [exPlugin]) = 1 ∧
    List.Chain' (fun a b => a.pluginIndex < b.pluginIndex)
      (installPlugins [exPlugin]) := by
  have h := c6_plugin_install_uninstall [exPlugin] 0 (by simp)
  refine ⟨?_, ?_, h.2.2.2.1⟩
  · simpa [exPlugin] using h.2.2.2.2.2.1
  · simpa [exPlugin] using h.2.2.2.2.2.2

/-- C7: `estimateSize` returns `pageHeight × scale` by `pageWidth × scale` when
the absolute value of the rotation is a multiple of 180 degrees, and the same
two products with height and width swapped otherwise. -/
theorem c7_estimateSize_swap (pageHeight pageWidth : ℚ) (rotation : Int) (scale : ℚ) :
    estimateSize pageHeight pageWidth rotation scale =
      if (180 : Int) ∣ rotation then
        { height := pageHeight * scale, width := pageWidth * scale }
      else
        { height := pageWidth * scale, width := pageHeight * scale } := by
  have hdvd : (180 : Int) ∣ rotation ↔ rotation.natAbs % 180 = 0 := by
    rw [Int.dvd_iff_emod_eq_zero]
    omega
  by_cases h : rotation.natAbs % 180 = 0
  · simp [estimateSize, h, hdvd.mpr h]
  · have h' : ¬(180 : Int) ∣ rotation := fun hd => h (hdvd.mp hd)
    simp [estimateSize, h, h']

/-- C8: starting from rotation 0, any sequence of `rotate` calls keeps the
global rotation a multiple of 90 in `[-360, 360]`; each step adds `±90` except
from `±360`, where the new rotation is the bare step; and one `rotate` call
(with no state-transforming plugin hooks) makes the component rotation, the
stored viewer-state rotation, and the rotation reported to `onRotate` all equal
to the updated value. -/
theorem c8_rotation_invariant (dirs : List RotateDirection) (plugins : List Plugin)
    (s : InnerState) (d : RotateDirection) (r : Int)
    (hplugins : ∀ p ∈ plugins, p.onViewerStateChange = none) :
    (List.foldl rotateUpdate 0 dirs % 90 = 0 ∧
      -360 ≤ List.foldl rotateUpdate 0 dirs ∧ List.foldl rotateUpdate 0 dirs ≤ 360) ∧
    (r ≠ 360 → r ≠ -360 →
      rotateUpdate r d = r + (if d = RotateDirection.Backward then -90 else 90)) ∧
    (r = 360 ∨ r = -360 →
      rotateUpdate r d = (if d = RotateDirection.Backward then -90 else 90)) ∧
    (rotate plugins s d).1.rotation = rotateUpdate s.stateRef.rotation d ∧
    (rotate plugins s d).1.stateRef.rotation = rotateUpdate s.stateRef.rotation d ∧
    (rotate plugins s d).2.rotation = rotateUpdate s.stateRef.rotation d := by
  refine ⟨foldl_rotateUpdate_preserves dirs 0 (by norm_num), ?_, ?_, ?_, ?_, rfl⟩
  · intro h1 h2
    simp [rotateUpdate, h1, h2]
  · intro h
    simp [rotateUpdate, h]
  · rfl
  · simp [rotate, setViewerStateOp,
      applyViewerStateChange_of_no_hooks plugins _ hplugins]

/-- Witness for C8 at a concrete direction sequence and state. -/
theorem c8_rotation_invariant_witness :
    (List.foldl rotateUpdate 0
        [RotateDirection.Forward, RotateDirection.Forward] % 90 = 0 ∧
      -360 ≤ List.foldl rotateUpdate 0 [RotateDirection.Forward, RotateDirection.Forward] ∧
      List.foldl rotateUpdate 0 [RotateDirection.Forward, RotateDirection.Forward] ≤ 360) ∧
    ((90 : Int) ≠ 360 → (90 : Int) ≠ -360 →
      rotateUpdate 90 RotateDirection.Forward =
        90 + (if RotateDirection.Forward = RotateDirection.Backward then -90 else 90)) ∧
    ((90 : Int) = 360 ∨ (90 : Int) = -360 →
      rotateUpdate 90 RotateDirection.Forward =
        (if RotateDirection.Forward = RotateDirection.Backward then -90 else 90)) ∧
    (rotate [] exState RotateDirection.Forward).1.rotation =
      rotateUpdate exState.stateRef.rotation RotateDirection.Forward ∧
    (rotate [] exState RotateDirection.Forward).1.stateRef.rotation =
      rotateUpdate exState.stateRef.rotation RotateDirection.Forward ∧
    (rotate [] exState RotateDirection.Forward).2.rotation =
      rotateUpdate exState.stateRef.rotation RotateDirection.Forward :=
  c8_rotation_invariant [RotateDirection.Forward, RotateDirection.Forward] [] exState
    RotateDirection.Forward 90 (by intro p hp; simp at hp)

/-- C9: when the computed scale equals the current scale in the viewer state,
`zoom` returns early: `virtualizer.zoom` is not called, `onZoom` is not
invoked, and the scale, viewer state, render queue and render-queue key are
all unchanged. -/
theorem c9_zoom_early_return (plugins : List Plugin) (calcScale : SpecialZoomLevel → ℚ)
    (pagesEleExists : Bool) (s : InnerState) (newScale : ℚ ⊕ SpecialZoomLevel)
    (h : (if pagesEleExists then
            match newScale with
            | Sum.inl v => v
            | Sum.inr lvl => calcScale lvl
          else 1) = s.stateRef.scale) :
    (zoom plugins calcScale pagesEleExists s newScale).2.1 = none ∧
    (zoom plugins calcScale pagesEleExists s newScale).2.2 = none ∧
    (zoom plugins calcScale pagesEleExists s newScale).1.scale = s.scale ∧
    (zoom plugins calcScale pagesEleExists s newScale).1.stateRef = s.stateRef ∧
    (zoom plugins calcScale pagesEleExists s newScale).1.renderQueue = s.renderQueue ∧
    (zoom plugins calcScale pagesEleExists s newScale).1.renderQueueKey = s.renderQueueKey := by
  simp only [zoom, h, if_pos rfl]
  exact ⟨rfl, rfl, rfl, rfl, rfl, rfl⟩

/-- Witness for C9: zooming to the current scale 1 changes nothing. -/
theorem c9_zoom_early_return_witness :
    (zoom [] (fun _ => 1) true exState (Sum.inl 1)).2.1 = none ∧
    (zoom [] (fun _ => 1) true exState (Sum.inl 1)).2.2 = none ∧
    (zoom [] (fun _ => 1) true exState (Sum.inl 1)).1.scale = exState.scale ∧
    (zoom [] (fun _ => 1) true exState (Sum.inl 1)).1.stateRef = exState.stateRef ∧
    (zoom [] (fun _ => 1) true exState (Sum.inl 1)).1.renderQueue = exState.renderQueue ∧
    (zoom [] (fun _ => 1) true exState (Sum.inl 1)).1.renderQueueKey = exState.renderQueueKey :=
  c9_zoom_early_return [] (fun _ => 1) true exState (Sum.inl 1) rfl

/-- C10: `jumpToPage` scrolls exactly when `0 ≤ pageIndex < numPages` (to that
page, with zero offsets) and is a no-op otherwise; `executeNamedAction` jumps
for `NextPage` only when `currentPage + 1 < numPages` and for `PrevPage` only
when `currentPage - 1 ≥ 0`; unrecognized action names do nothing. -/
theorem c10_jump_guards (numPages : Nat) (currentPage pageIndex : Int) (a : String)
    (ha1 : a ≠ actionFirstPage) (ha2 : a ≠ actionLastPage) (ha3 : a ≠ actionNextPage)
    (ha4 : a ≠ actionPrevPage) :
    (jumpToPage numPages pageIndex =
      if 0 ≤ pageIndex ∧ pageIndex < (numPages : Int) then
        some { itemIndex := pageIndex, left := 0, top := 0 }
      else none) ∧
    ((jumpToPage numPages pageIndex).isSome ↔
      0 ≤ pageIndex ∧ pageIndex < (numPages : Int)) ∧
    ((executeNamedAction numPages currentPage actionNextPage).isSome →
      currentPage + 1 < (numPages : Int)) ∧
    ((executeNamedAction numPages currentPage actionPrevPage).isSome →
      0 ≤ currentPage - 1) ∧
    executeNamedAction numPages currentPage a = none := by
  refine ⟨rfl, ?_, ?_, ?_, ?_⟩
  · unfold jumpToPage
    split_ifs with h <;> simp [h]
  · intro h
    simp only [executeNamedAction] at h
    rw [if_neg (by decide : ¬actionNextPage = actionFirstPage),
      if_neg (by decide : ¬actionNextPage = actionLastPage)] at h
    simp only [if_true] at h
    by_cases hc : currentPage + 1 < (numPages : Int)
    · exact hc
    · rw [if_neg hc] at h
      simp at h
  · intro h
    simp only [executeNamedAction] at h
    rw [if_neg (by decide : ¬actionPrevPage = actionFirstPage),
      if_neg (by decide : ¬actionPrevPage = actionLastPage),
      if_neg (by decide : ¬actionPrevPage = actionNextPage)] at h
    simp only [if_true] at h
    by_cases hc : currentPage - 1 ≥ 0
    · exact hc
    · rw [if_neg hc] at h
      simp at h
  · unfold executeNamedAction
    rw [if_neg ha1, if_neg ha2, if_neg ha3, if_neg ha4]

/-- Witness for C10 at a three-page document. -/
theorem c10_jump_guards_witness :
    ((jumpToPage 3 5 =
      if 0 ≤ (5 : Int) ∧ (5 : Int) < ((3 : Nat) : Int) then
        some { itemIndex := 5, left := 0, top := 0 }
      else none) ∧
    ((jumpToPage 3 5).isSome ↔ 0 ≤ (5 : Int) ∧ (5 : Int) < ((3 : Nat) : Int)) ∧
    ((executeNamedAction 3 1 actionNextPage).isSome → (1 : Int) + 1 < ((3 : Nat) : Int)) ∧
    ((executeNamedAction 3 1 actionPrevPage).isSome → 0 ≤ (1 : Int) - 1) ∧
    executeNamedAction 3 1 actionGoBack = none) := by
  exact c10_jump_guards 3 1 5 actionGoBack (by decide) (by decide) (by decide) (by decide)

end ReactPdfViewer
